import Mathlib

/-!
Shallow embedding of the ffi-convert runtime library and of the code that the
ffi-convert-derive macros emit, together with proofs about the conversion
contracts (CReprOf, AsRust, CDrop, RawPointerConverter).

Modelling conventions:
* Rust byte values are Nat, byte buffers are List Nat.
* An owned Rust String is represented by its UTF-8 byte buffer (List Nat);
  the String type invariant (valid UTF-8) is carried as an explicit predicate.
* A CString (owned nul-terminated allocation) is represented by the byte
  buffer it stores, without the trailing nul.
* A raw pointer produced by boxing a value is Ptr.valid v: the pointer owns
  its pointee, mirroring Box into_raw semantics where the pointer is never
  null.  The null pointer is Ptr.null.
* f32 fields are represented by their bit patterns (Nat).  The only
  operations the code performs on f32 are bitwise moves, so this is exact.
* Machine integers: i32 and i64 values are Int, usize and u8 values are Nat,
  with explicit wrapping where the code performs an `as` cast.
* Fallible Rust code returning Result is embedded as Except.  A Rust panic
  (expect / unwrap) is a distinguished failure constructor, since a panic is
  not a typed conversion error.
-/

namespace FfiConvert

/-- Model of ffi-convert CReprOfError (conversions.rs). -/
inductive CReprOfErr where
  | stringContainsNullBit
  | other (msg : String)
deriving DecidableEq

/-- Outcome of running code that returns Result of CReprOfError but may also
panic (CArray c_repr_of uses expect).  convErr is the typed Err path,
panicked is a Rust panic with the panic message. -/
inductive Failure where
  | convErr (e : CReprOfErr)
  | panicked (msg : String)
deriving DecidableEq

/-- Result monad for the to-C direction. -/
abbrev Res (α : Type) := Except Failure α

/-- Model of ffi-convert AsRustError (conversions.rs): an unexpected null
pointer, an invalid UTF-8 string, or another boxed error. -/
inductive AsRustErr where
  | nullPointer
  | utf8Error
  | other (msg : String)
deriving DecidableEq

/-- Result monad for the from-C direction. -/
abbrev ARes (α : Type) := Except AsRustErr α

/-- An owned raw pointer as produced by Box into_raw / CString into_raw:
either the null pointer, or a non-null pointer owning its pointee. -/
inductive Ptr (α : Type) where
  | null
  | valid (a : α)
deriving DecidableEq

/-- Model of the is_null test on a raw pointer. -/
def Ptr.isNull : Ptr α → Bool
  | .null => true
  | .valid _ => false

/-- Generic RawPointerConverter into_raw_pointer (conversions.rs, blanket
impl for T): Box::into_raw(Box::new(self)); the result is never null. -/
def intoRawPointer (a : α) : Ptr α := .valid a

/-- Generic RawBorrow raw_borrow composed with the ? conversion of
UnexpectedNullPointerError into AsRustError::NullPointer: borrowing a null
pointer fails, borrowing a valid pointer yields the pointee. -/
def rawBorrow : Ptr α → ARes α
  | .null => .error .nullPointer
  | .valid a => .ok a

/-- UTF-8 validation over a byte buffer, following the table used by Rust
str::from_utf8 (RFC 3629 ranges, surrogates and overlong forms rejected). -/
def utf8IsValid : List Nat → Bool
  | [] => true
  | b :: rest =>
    if b ≤ 0x7F then utf8IsValid rest
    else if 0xC2 ≤ b ∧ b ≤ 0xDF then
      match rest with
      | [] => false
      | c :: r => decide (0x80 ≤ c ∧ c ≤ 0xBF) && utf8IsValid r
    else if b = 0xE0 then
      match rest with
      | c :: d :: r =>
        decide (0xA0 ≤ c ∧ c ≤ 0xBF) && decide (0x80 ≤ d ∧ d ≤ 0xBF) &&
          utf8IsValid r
      | _ => false
    else if (0xE1 ≤ b ∧ b ≤ 0xEC) ∨ b = 0xEE ∨ b = 0xEF then
      match rest with
      | c :: d :: r =>
        decide (0x80 ≤ c ∧ c ≤ 0xBF) && decide (0x80 ≤ d ∧ d ≤ 0xBF) &&
          utf8IsValid r
      | _ => false
    else if b = 0xED then
      match rest with
      | c :: d :: r =>
        decide (0x80 ≤ c ∧ c ≤ 0x9F) && decide (0x80 ≤ d ∧ d ≤ 0xBF) &&
          utf8IsValid r
      | _ => false
    else if b = 0xF0 then
      match rest with
      | c :: d :: e :: r =>
        decide (0x90 ≤ c ∧ c ≤ 0xBF) && decide (0x80 ≤ d ∧ d ≤ 0xBF) &&
          decide (0x80 ≤ e ∧ e ≤ 0xBF) && utf8IsValid r
      | _ => false
    else if 0xF1 ≤ b ∧ b ≤ 0xF3 then
      match rest with
      | c :: d :: e :: r =>
        decide (0x80 ≤ c ∧ c ≤ 0xBF) && decide (0x80 ≤ d ∧ d ≤ 0xBF) &&
          decide (0x80 ≤ e ∧ e ≤ 0xBF) && utf8IsValid r
      | _ => false
    else if b = 0xF4 then
      match rest with
      | c :: d :: e :: r =>
        decide (0x80 ≤ c ∧ c ≤ 0x8F) && decide (0x80 ≤ d ∧ d ≤ 0xBF) &&
          decide (0x80 ≤ e ∧ e ≤ 0xBF) && utf8IsValid r
      | _ => false
    else false

/-- CString::new over the string byte buffer: scan for an interior nul byte
(memchr); any nul byte is a NulError, otherwise the bytes are kept as the
CString content.  CReprOf String for CString (conversions.rs) wraps this
scan, turning NulError into CReprOfError::StringContainsNullBit. -/
def cStringCReprOf : List Nat → Res (List Nat)
  | [] => .ok []
  | b :: rest =>
    if b = 0 then .error (.convErr .stringContainsNullBit)
    else
      match cStringCReprOf rest with
      | .error e => .error e
      | .ok t => .ok (b :: t)

/-- AsRust String for CStr (conversions.rs): to_str validates UTF-8 and
to_owned copies the same bytes. -/
def cStrAsRust (s : List Nat) : ARes (List Nat) :=
  if utf8IsValid s then .ok s else .error .utf8Error

/-- The composition CStr::raw_borrow(ptr)?.as_rust()? used for string fields
(conversions.rs RawBorrow for CStr followed by AsRust String for CStr). -/
def cStringPtrAsRust (p : Ptr (List Nat)) : ARes (List Nat) :=
  match rawBorrow p with
  | .error e => .error e
  | .ok s => cStrAsRust s

/-- Iterator collect into Result for the to-C direction: first error
short-circuits, success collects all element results in order. -/
def collectResults (conv : β → Res α) : List β → Res (List α)
  | [] => .ok []
  | x :: xs =>
    match conv x with
    | .error e => .error e
    | .ok y =>
      match collectResults conv xs with
      | .error e => .error e
      | .ok ys => .ok (y :: ys)

/-- The element loop of the as_rust implementations on arrays: convert each
element, propagating the first failure. -/
def mapAsRust (f : α → ARes β) : List α → ARes (List β)
  | [] => .ok []
  | x :: xs =>
    match f x with
    | .error e => .error e
    | .ok y =>
      match mapAsRust f xs with
      | .error e => .error e
      | .ok ys => .ok (y :: ys)

/-- Model of CArray (types.rs): a raw pointer to a boxed slice of the
element C representations plus the recorded size.  The pointer owns the
slice contents. -/
structure CArrayM (α : Type) where
  data_ptr : Ptr (List α)
  size : Nat
deriving DecidableEq

/-- CArray::c_repr_of (types.rs): convert every element, box the resulting
slice when the input is nonempty and record the null pointer otherwise.
The source collects the element results into a Result and then calls
expect on it, so an element conversion failure is a PANIC with the expect
message, not a returned Err. -/
def cArrayCReprOf (conv : β → Res α) (input : List β) : Res (CArrayM α) :=
  let input_size := input.length
  if input_size > 0 then
    match collectResults conv input with
    | .ok l => .ok ⟨.valid l, input_size⟩
    | .error _ => .error (.panicked "Could not convert to C representation")
  else
    .ok ⟨.null, input_size⟩

/-- CArray::as_rust (types.rs): when size is zero return the empty vector
without touching the pointer; otherwise read size elements from the data
pointer (slice::from_raw_parts) and convert each.  Reading through the null
pointer, or reading more elements than the block holds, is undefined
behavior, modelled as a distinguished error. -/
def cArrayAsRust (elemAsRust : α → ARes β) (arr : CArrayM α) : ARes (List β) :=
  if arr.size > 0 then
    match arr.data_ptr with
    | .null => .error (.other "undefined behavior: from_raw_parts on null")
    | .valid l =>
      if l.length = arr.size then mapAsRust elemAsRust l
      else .error (.other "undefined behavior: from_raw_parts out of bounds")
  else
    .ok []

/-- Model of CStringArray (types.rs): a raw pointer to a boxed slice of raw
C string pointers plus the recorded size. -/
structure CStringArrayM where
  data : Ptr (List (Ptr (List Nat)))
  size : Nat
deriving DecidableEq

/-- CStringArray::c_repr_of (types.rs): size is input.len() and data is
Box::into_raw of the boxed slice of CString::c_repr_of(s)?.into_raw_pointer()
results; the ? propagates element failures.  Box::into_raw is never null,
also for the empty slice, so the stored data pointer is always non-null. -/
def cStringArrayCReprOf (input : List (List Nat)) : Res CStringArrayM :=
  match collectResults (fun s =>
      match cStringCReprOf s with
      | .error e => .error e
      | .ok t => .ok (intoRawPointer t)) input with
  | .error e => .error e
  | .ok ptrs => .ok ⟨.valid ptrs, input.length⟩

/-- Rust `as` cast from usize (64-bit) to i32: truncate to the low 32 bits
and reinterpret them as a signed 32-bit value.  Used by the
impl_c_repr_of_for!(usize, i32) implementation (conversions.rs). -/
def usizeToI32 (n : Nat) : Int :=
  let m := n % 4294967296
  if m < 2147483648 then (m : Int) else (m : Int) - 4294967296

/-- Rust `as` cast from i32 to usize (64-bit): sign-extend to 64 bits and
reinterpret as unsigned.  Used by the impl_as_rust_for!(i32, usize)
implementation (conversions.rs). -/
def i32ToUsize (x : Int) : Nat :=
  (x % 18446744073709551616).toNat

/-- CReprOf bool for u8 (conversions.rs). -/
def boolToU8 (b : Bool) : Nat := if b then 1 else 0

/-- AsRust bool for u8 (conversions.rs): the byte is true iff nonzero. -/
def u8ToBool (n : Nat) : Bool := n ≠ 0

/-- Model of Range over usize. -/
structure RangeNat where
  start : Nat
  stop : Nat
deriving DecidableEq

/-- Model of Range over i64. -/
structure RangeInt where
  start : Int
  stop : Int
deriving DecidableEq

/-- Model of CRange over i32 (types.rs). -/
structure CRangeM where
  start : Int
  stop : Int
deriving DecidableEq

/-- CRange::c_repr_of at U = i32, V = usize (types.rs): apply the element
conversion independently to start and end. -/
def cRangeCReprOf (r : RangeNat) : Res CRangeM :=
  .ok ⟨usizeToI32 r.start, usizeToI32 r.stop⟩

/-- CRange::as_rust at U = i32, V = usize (types.rs). -/
def cRangeAsRust (c : CRangeM) : ARes RangeNat :=
  .ok ⟨i32ToUsize c.start, i32ToUsize c.stop⟩

/-!
Syntactic model of the derive-macro code generator
(ffi-convert-derive: utils.rs, creprof.rs, asrust.rs, cdrop.rs).
The generator inspects each field declaration and emits one conversion
expression per field; we model the field type syntax, the classifier
parse_field, and the shape of the emitted expressions.
-/

/-- The fragment of syn::Type that parse_field (utils.rs) distinguishes:
a path type (with or without angle-bracketed parameters), a const pointer
type, a fixed array type, or anything else (rejected). -/
inductive SynType where
  | path (ident : String) (hasParams : Bool)
  | ptrConst (elem : SynType)
  | arr
  | unsupported
deriving DecidableEq

/-- The pointer-stripping loop of parse_field (utils.rs): strip leading
pointer indirections, counting them. -/
def stripPtr : SynType → SynType × Nat
  | .ptrConst elem => let (t, n) := stripPtr elem; (t, n + 1)
  | t => (t, 0)

/-- A field declaration as the macros receive it: declared name, declared
type, and the helper attributes nullable, target_name and
c_repr_of_convert. -/
structure RawField where
  name : String
  ty : SynType
  nullable : Bool
  targetNameAttr : Option String
  hasConvertAttr : Bool
deriving DecidableEq

/-- The field descriptor produced by parse_field (utils.rs struct Field):
declared name, target-side name, bare element type (parameters stripped),
array-vs-path distinction, nullability, string flag, pointer flag,
override flag and the counted pointer depth. -/
structure SField where
  name : String
  target_name : String
  fieldTypeIdent : String
  isTypeArray : Bool
  is_nullable : Bool
  is_string : Bool
  is_pointer : Bool
  hasConvert : Bool
  levels_of_indirection : Nat
deriving DecidableEq

/-- parse_field (utils.rs): strip pointers counting depth, classify the
inner type (path or array supported, anything else is a compile-time
panic), detect the string shape (exactly a pointer whose immediate element
is a path ending in c_char), resolve the rename, and record the flags. -/
def parseField (f : RawField) : Except String SField :=
  let (inner, levels) := stripPtr f.ty
  let isString :=
    match f.ty with
    | .ptrConst (.path "c_char" _) => true
    | _ => false
  let isPointer :=
    match f.ty with
    | .ptrConst _ => true
    | _ => false
  match inner with
  | .path ident _ =>
    .ok ⟨f.name, f.targetNameAttr.getD f.name, ident, false, f.nullable,
      isString, isPointer, f.hasConvertAttr, levels⟩
  | .arr =>
    .ok ⟨f.name, f.targetNameAttr.getD f.name, "", true, f.nullable,
      isString, isPointer, f.hasConvertAttr, levels⟩
  | _ => .error "Field type used in this struct is not supported by the proc macro"

/-- parse_struct_fields: parse every field, the first classification panic
aborting the whole expansion. -/
def parseFields : List RawField → Except String (List SField)
  | [] => .ok []
  | f :: fs =>
    match parseField f with
    | .error e => .error e
    | .ok d =>
      match parseFields fs with
      | .error e => .error e
      | .ok ds => .ok (d :: ds)

/-- Shape of the per-field conversion expression emitted by
impl_creprof_macro (creprof.rs): the string base case, the named-type base
case, and an into_raw_pointer application layered per indirection level. -/
inductive CExpr where
  | cstringCReprOfField
  | typeCReprOfField (ty : String)
  | intoRawPtr (e : CExpr)
deriving DecidableEq

/-- Iterate into_raw_pointer over the base conversion, once per recorded
indirection level (the for loop in creprof.rs). -/
def iterIntoRaw : Nat → CExpr → CExpr
  | 0, e => e
  | n + 1, e => .intoRawPtr (iterIntoRaw n e)

/-- One field initializer of the generated c_repr_of body: the C-side field
name, the owned-side field accessed on input, and the conversion, either
guarded by an Option test (nullable), plain, or replaced wholesale by the
override expression. -/
inductive CFieldInit where
  | nullableInit (cName : String) (inputField : String) (e : CExpr)
  | plainInit (cName : String) (inputField : String) (e : CExpr)
  | overrideInit (cName : String)
deriving DecidableEq

/-- The per-field emission of impl_creprof_macro (creprof.rs): base
conversion by string-ness, into_raw_pointer chain per indirection level for
pointer fields, nullable guard, override replacement.  Note the owned-side
access uses the declared C-side field name (input.#field_name), not the
target name. -/
def creprofField (f : SField) : CFieldInit :=
  let base : CExpr :=
    if f.is_string then .cstringCReprOfField else .typeCReprOfField f.fieldTypeIdent
  let conv := if f.is_pointer then iterIntoRaw f.levels_of_indirection base else base
  if f.hasConvert then .overrideInit f.name
  else if f.is_nullable then .nullableInit f.name f.name conv
  else .plainInit f.name f.name conv

/-- impl_creprof_macro (creprof.rs): parse all fields then emit one
initializer per field; the emitter itself has no failure path. -/
def creprofExpand (fields : List RawField) : Except String (List CFieldInit) :=
  match parseFields fields with
  | .error e => .error e
  | .ok ds => .ok (ds.map creprofField)

/-- Shape of the per-field conversion expression emitted by
impl_asrust_macro (asrust.rs). -/
inductive AExpr where
  | cstrBorrowAsRust (fieldName : String)
  | typeArrayBorrowAsRust (fieldName : String)
  | typePathBorrowAsRust (ty : String) (fieldName : String)
  | selfAsRust (fieldName : String)
deriving DecidableEq

/-- One field initializer of the generated as_rust body: the owned-side
target field name and the conversion, with a null-check guard when
nullable. -/
inductive AFieldInit where
  | nullableInit (targetName : String) (srcField : String) (e : AExpr)
  | plainInit (targetName : String) (e : AExpr)
deriving DecidableEq

/-- The per-field emission of impl_asrust_macro (asrust.rs): a field with
more than one level of indirection that is not nullable is a compile-time
panic; otherwise emit the string borrow, the pointer borrow (array or path
form) or the plain as_rust call, wrap in the null-check for nullable
fields, and drop the field entirely when it carries a c_repr_of_convert
override. -/
def asrustField (f : SField) : Except String (Option AFieldInit) :=
  if f.levels_of_indirection > 1 ∧ f.is_nullable = false then
    .error ("The CReprOf, AsRust, and CDrop traits cannot be derived automatically: The field "
      ++ f.name ++ " is a pointer field has too many levels of indirection ("
      ++ toString f.levels_of_indirection
      ++ " in this case). Please implements those traits manually.")
  else
    let e : AExpr :=
      if f.is_string then .cstrBorrowAsRust f.name
      else if f.is_pointer then
        if f.isTypeArray then .typeArrayBorrowAsRust f.name
        else .typePathBorrowAsRust f.fieldTypeIdent f.name
      else .selfAsRust f.name
    let init :=
      if f.is_nullable then AFieldInit.nullableInit f.target_name f.name e
      else AFieldInit.plainInit f.target_name e
    if f.hasConvert then .ok none else .ok (some init)

/-- The filter_map collection over asrustField results. -/
def asrustFields : List SField → Except String (List AFieldInit)
  | [] => .ok []
  | d :: ds =>
    match asrustField d with
    | .error e => .error e
    | .ok o =>
      match asrustFields ds with
      | .error e => .error e
      | .ok rest => .ok (match o with | some i => i :: rest | none => rest)

/-- impl_asrust_macro (asrust.rs): parse all fields then run the per-field
emission, which panics on a non-nullable field with indirection deeper
than one level. -/
def asrustExpand (fields : List RawField) : Except String (List AFieldInit) :=
  match parseFields fields with
  | .error e => .error e
  | .ok ds => asrustFields ds

/-- Shape of the release call emitted by impl_cdrop_macro (cdrop.rs) for
one field: the CString release for string fields, one drop_raw_pointer
call (array or path form) for other pointer fields, and nothing for plain
value fields. -/
inductive DExpr where
  | dropCString (fieldName : String)
  | dropTypeArrayPtr (fieldName : String)
  | dropTypePathPtr (ty : String) (fieldName : String)
  | emptyStmt
deriving DecidableEq

/-- One statement of the generated do_drop body: the release expression,
wrapped in a null-check guard exactly when the field is nullable. -/
inductive DStmt where
  | guarded (fieldName : String) (e : DExpr)
  | plain (e : DExpr)
deriving DecidableEq

/-- The per-field emission of impl_cdrop_macro (cdrop.rs). -/
def cdropField (f : SField) : DStmt :=
  let e : DExpr :=
    if f.is_string then .dropCString f.name
    else if f.is_pointer then
      if f.isTypeArray then .dropTypeArrayPtr f.name
      else .dropTypePathPtr f.fieldTypeIdent f.name
    else .emptyStmt
  if f.is_nullable then .guarded f.name e else .plain e

/-- impl_cdrop_macro (cdrop.rs): parse all fields then emit one statement
per field; the emitter itself has no failure path. -/
def cdropExpand (fields : List RawField) : Except String (List DStmt) :=
  match parseFields fields with
  | .error e => .error e
  | .ok ds => .ok (ds.map cdropField)

/-- Number of release calls contained in one emitted do_drop statement. -/
def releaseCallsE : DExpr → Nat
  | .emptyStmt => 0
  | _ => 1

/-- Number of release calls in a do_drop statement, guard included. -/
def releaseCalls : DStmt → Nat
  | .guarded _ e => releaseCallsE e
  | .plain e => releaseCallsE e

/-- Whether the emitted do_drop statement carries a null-check guard. -/
def isGuarded : DStmt → Bool
  | .guarded _ _ => true
  | .plain _ => false

/-- The release expression inside a do_drop statement, guard stripped. -/
def dropExprOf : DStmt → DExpr
  | .guarded _ e => e
  | .plain e => e

/-!
Heap-indexed model of the raw pointer utilities (conversions.rs blanket
RawPointerConverter impl) and of CArray::as_rust, for the properties that
speak about mutation of memory.  Addresses are Nat, address 0 is the null
pointer, allocation hands out the next fresh non-null address.
-/

/-- A heap of values of one type: the next fresh address (kept nonzero, as
allocations are never null) and the contents at each address. -/
structure Heap (α : Type) where
  next : Nat
  mem : Nat → Option α

/-- Box::new followed by Box::into_raw: store the value at a fresh address
and return that address. -/
def Heap.alloc (h : Heap α) (a : α) : Nat × Heap α :=
  (h.next, ⟨h.next + 1, fun p => if p = h.next then some a else h.mem p⟩)

/-- Deallocation of the box behind an address. -/
def Heap.free (h : Heap α) (p : Nat) : Heap α :=
  ⟨h.next, fun q => if q = p then none else h.mem q⟩

/-- Generic into_raw_pointer (conversions.rs):
Box::into_raw(Box::new(self)). -/
def intoRawPointerH (v : α) (h : Heap α) : Nat × Heap α :=
  h.alloc v

/-- Outcome of an operation on a raw pointer: a value, the
UnexpectedNullPointerError, or undefined behavior (a pointer that does not
point at a live allocation of this type). -/
inductive PtrRes (α : Type) where
  | ok (a : α)
  | nullErr
  | ub
deriving DecidableEq

/-- Generic from_raw_pointer (conversions.rs): the null pointer is
UnexpectedNullPointerError, otherwise *Box::from_raw takes the value back
and frees the allocation; a dead or foreign address is undefined
behavior. -/
def fromRawPointerH (p : Nat) (h : Heap α) : PtrRes (α × Heap α) :=
  if p = 0 then .nullErr
  else
    match h.mem p with
    | some a => .ok (a, h.free p)
    | none => .ub

/-- CArray as laid out in memory for the heap-indexed model: the address of
the boxed element slice and the recorded size. -/
structure HCArray where
  data_ptr : Nat
  size : Nat
deriving DecidableEq

/-- CArray::as_rust (types.rs) against an explicit heap holding the boxed
element slices.  The source borrows self immutably and only reads: when the
size is zero the pointer is not touched, otherwise the slice is read
(slice::from_raw_parts) and each element converted.  The heap is threaded
through and returned so that non-mutation is a stated property. -/
def hCArrayAsRust (elemAsRust : α → ARes β) (arr : HCArray) (h : Heap (List α)) :
    PtrRes (ARes (List β)) × Heap (List α) :=
  if arr.size > 0 then
    match h.mem arr.data_ptr with
    | none => (.ub, h)
    | some l =>
      if l.length = arr.size then (.ok (mapAsRust elemAsRust l), h)
      else (.ub, h)
  else
    (.ok (.ok []), h)

/-!
Semantic model of the conversions that the derive macros emit for the
round-trip fixture struct (ffi-convert-tests/src/lib.rs, Pancake and
CPancake): one field per supported classification.  Each conversion body
below is the direct translation of the expression that impl_creprof_macro
and impl_asrust_macro emit for the corresponding field declaration,
composed with the runtime library implementations modelled above.  The
renamed-field classification (#[target_name]) is absent here: for such a
field impl_creprof_macro emits an access to the owned struct through the
C-side field name (see creprofField above), which does not exist on the
owned struct, so no conversion body exists for it.
-/

/-- f32 values by their bit patterns; the f32 conversions in the code are
identity moves (impl_c_repr_of_for!(f32), impl_as_rust_for!(f32)). -/
abbrev F32Bits := Nat

/-- Owned fixture sub-struct Dummy (ffi-convert-tests). -/
structure Dummy where
  count : Int
  describe : List Nat
deriving DecidableEq

/-- C-side fixture sub-struct CDummy: an i32 and an owned C string
pointer. -/
structure CDummyM where
  count : Int
  describe : Ptr (List Nat)
deriving DecidableEq

/-- Owned fixture sub-struct Sauce. -/
structure Sauce where
  volume : F32Bits
deriving DecidableEq

/-- C-side fixture sub-struct CSauce. -/
structure CSauceM where
  volume : F32Bits
deriving DecidableEq

/-- Owned fixture sub-struct Topping. -/
structure Topping where
  amount : Int
deriving DecidableEq

/-- C-side fixture sub-struct CTopping. -/
structure CToppingM where
  amount : Int
deriving DecidableEq

/-- Owned fixture sub-struct Layer. -/
structure Layer where
  number : Int
  subtitle : Option (List Nat)
deriving DecidableEq

/-- C-side fixture sub-struct CLayer: an i32 and a nullable C string
pointer. -/
structure CLayerM where
  number : Int
  subtitle : Ptr (List Nat)
deriving DecidableEq

/-- The emitted expression for a non-nullable string field:
std::ffi::CString::c_repr_of(field)?.into_raw_pointer(). -/
def stringFieldCReprOf (s : List Nat) : Res (Ptr (List Nat)) :=
  match cStringCReprOf s with
  | .error e => .error e
  | .ok t => .ok (intoRawPointer t)

/-- The emitted expression for a nullable string field: if the owned
Option is Some the non-nullable string conversion runs, otherwise the
field becomes the null pointer. -/
def nullableStringCReprOf (o : Option (List Nat)) : Res (Ptr (List Nat)) :=
  match o with
  | some field => stringFieldCReprOf field
  | none => .ok .null

/-- The emitted expression for a non-nullable pointer field at one level of
indirection: #field_type::c_repr_of(field)?.into_raw_pointer(). -/
def ptrFieldCReprOf (conv : β → Res α) (field : β) : Res (Ptr α) :=
  match conv field with
  | .error e => .error e
  | .ok y => .ok (intoRawPointer y)

/-- The emitted expression for a nullable pointer field: the Option guard
around the non-nullable pointer conversion, None becoming null. -/
def nullablePtrCReprOf (conv : β → Res α) (o : Option β) : Res (Ptr α) :=
  match o with
  | some field => ptrFieldCReprOf conv field
  | none => .ok .null

/-- The emitted expression for a non-nullable pointer field in the as_rust
direction: #field_type::raw_borrow(self.#field)? then .as_rust()?. -/
def ptrFieldAsRust (back : α → ARes β) (p : Ptr α) : ARes β :=
  match rawBorrow p with
  | .error e => .error e
  | .ok y => back y

/-- The emitted null-check guard around a conversion for a nullable field
in the as_rust direction: non-null pointers convert to Some, the null
pointer to None. -/
def nullableAsRust (back : Ptr α → ARes β) (p : Ptr α) : ARes (Option β) :=
  if p.isNull then .ok none
  else
    match back p with
    | .error e => .error e
    | .ok y => .ok (some y)

/-- Generated CDummy::c_repr_of: count converts by the i32 identity, and
describe is CString::c_repr_of(field)?.into_raw_pointer(). -/
def cDummyCReprOf (input : Dummy) : Res CDummyM :=
  match stringFieldCReprOf input.describe with
  | .error e => .error e
  | .ok p => .ok ⟨input.count, p⟩

/-- Generated CDummy::as_rust: count by the i32 identity, describe by
CStr::raw_borrow(self.describe)?.as_rust()?. -/
def cDummyAsRust (c : CDummyM) : ARes Dummy :=
  match cStringPtrAsRust c.describe with
  | .error e => .error e
  | .ok s => .ok ⟨c.count, s⟩

/-- Generated CSauce::c_repr_of: the f32 identity conversion. -/
def cSauceCReprOf (input : Sauce) : Res CSauceM :=
  .ok ⟨input.volume⟩

/-- Generated CSauce::as_rust. -/
def cSauceAsRust (c : CSauceM) : ARes Sauce :=
  .ok ⟨c.volume⟩

/-- Generated CTopping::c_repr_of: the i32 identity conversion. -/
def cToppingCReprOf (input : Topping) : Res CToppingM :=
  .ok ⟨input.amount⟩

/-- Generated CTopping::as_rust. -/
def cToppingAsRust (c : CToppingM) : ARes Topping :=
  .ok ⟨c.amount⟩

/-- Generated CLayer::c_repr_of: number by the i32 identity, subtitle by
the nullable-string emission: present values convert through
CString::c_repr_of(field)?.into_raw_pointer(), absent values become the
null pointer. -/
def cLayerCReprOf (input : Layer) : Res CLayerM :=
  match nullableStringCReprOf input.subtitle with
  | .error e => .error e
  | .ok p => .ok ⟨input.number, p⟩

/-- Generated CLayer::as_rust: subtitle is read back through the null-check
guard, borrowing and validating the string when the pointer is non-null. -/
def cLayerAsRust (c : CLayerM) : ARes Layer :=
  match nullableAsRust cStringPtrAsRust c.subtitle with
  | .error e => .error e
  | .ok o => .ok ⟨c.number, o⟩

/-- Owned fixture struct Pancake (ffi-convert-tests), restricted to the
fields whose classifications admit a generated conversion body: plain
scalars, string, nullable string, sub-struct by value, nullable sub-struct
pointer, dynamic array, nullable array, range, and the
overridden/flattened range. -/
structure Pancake where
  name : List Nat
  description : Option (List Nat)
  start : F32Bits
  stop : Option F32Bits
  dummy : Dummy
  sauce : Option Sauce
  toppings : List Topping
  layers : Option (List Layer)
  is_delicious : Bool
  range : RangeNat
  flattened_range : RangeInt
deriving DecidableEq

/-- C-side fixture struct CPancake for the same fields.  The flattened
range is split into the two overridden i64 fields. -/
structure CPancakeM where
  name : Ptr (List Nat)
  description : Ptr (List Nat)
  start : F32Bits
  stop : Ptr F32Bits
  dummy : CDummyM
  sauce : Ptr CSauceM
  toppings : Ptr (CArrayM CToppingM)
  layers : Ptr (CArrayM CLayerM)
  is_delicious : Nat
  range : CRangeM
  flattened_range_start : Int
  flattened_range_stop : Int
deriving DecidableEq

/-- Generated CPancake::c_repr_of, field by field in declaration order with
the ? short-circuit of the first failure, exactly as impl_creprof_macro
emits it: strings through CString::c_repr_of + into_raw_pointer, nullable
fields through the Option guard with the null pointer for None, sub-struct
pointers through the sub-struct c_repr_of + into_raw_pointer, arrays
through CArray::c_repr_of + into_raw_pointer, plain fields through the
element c_repr_of, the bool through the u8 conversion, the range through
CRange::c_repr_of, and the two overridden fields through their
c_repr_of_convert expressions input.flattened_range.start and
input.flattened_range.end. -/
def cPancakeCReprOf (input : Pancake) : Res CPancakeM :=
  match stringFieldCReprOf input.name with
  | .error e => .error e
  | .ok name =>
  match nullableStringCReprOf input.description with
  | .error e => .error e
  | .ok description =>
  match nullablePtrCReprOf (fun f => (.ok f : Res F32Bits)) input.stop with
  | .error e => .error e
  | .ok stop =>
  match cDummyCReprOf input.dummy with
  | .error e => .error e
  | .ok dummy =>
  match nullablePtrCReprOf cSauceCReprOf input.sauce with
  | .error e => .error e
  | .ok sauce =>
  match ptrFieldCReprOf (cArrayCReprOf cToppingCReprOf) input.toppings with
  | .error e => .error e
  | .ok toppings =>
  match nullablePtrCReprOf (cArrayCReprOf cLayerCReprOf) input.layers with
  | .error e => .error e
  | .ok layers =>
  match cRangeCReprOf input.range with
  | .error e => .error e
  | .ok range =>
    .ok ⟨name, description, input.start, stop, dummy, sauce, toppings, layers,
      boolToU8 input.is_delicious, range,
      input.flattened_range.start, input.flattened_range.stop⟩

/-- Generated CPancake::as_rust, field by field, exactly as
impl_asrust_macro emits it: strings through CStr::raw_borrow + as_rust,
nullable fields through the null-check guard producing an Option,
sub-struct and array pointers through raw_borrow + as_rust, plain fields
through the element as_rust, and the flattened range rebuilt by the
as_rust_extra_field clause from the two overridden i64 fields. -/
def cPancakeAsRust (self : CPancakeM) : ARes Pancake :=
  match cStringPtrAsRust self.name with
  | .error e => .error e
  | .ok name =>
  match nullableAsRust cStringPtrAsRust self.description with
  | .error e => .error e
  | .ok description =>
  match nullableAsRust (ptrFieldAsRust (fun f => (.ok f : ARes F32Bits))) self.stop with
  | .error e => .error e
  | .ok stop =>
  match cDummyAsRust self.dummy with
  | .error e => .error e
  | .ok dummy =>
  match nullableAsRust (ptrFieldAsRust cSauceAsRust) self.sauce with
  | .error e => .error e
  | .ok sauce =>
  match ptrFieldAsRust (cArrayAsRust cToppingAsRust) self.toppings with
  | .error e => .error e
  | .ok toppings =>
  match nullableAsRust (ptrFieldAsRust (cArrayAsRust cLayerAsRust)) self.layers with
  | .error e => .error e
  | .ok layers =>
  match cRangeAsRust self.range with
  | .error e => .error e
  | .ok range =>
    .ok ⟨name, description, self.start, stop, dummy, sauce, toppings, layers,
      u8ToBool self.is_delicious, range,
      ⟨self.flattened_range_start, self.flattened_range_stop⟩⟩

/-- The String type invariant for every owned string reachable in a
Pancake: a Rust String always holds valid UTF-8. -/
def pancakeWf (v : Pancake) : Bool :=
  utf8IsValid v.name &&
  (match v.description with
   | some s => utf8IsValid s
   | none => true) &&
  utf8IsValid v.dummy.describe &&
  (match v.layers with
   | some ls => ls.all (fun l =>
       match l.subtitle with
       | some s => utf8IsValid s
       | none => true)
   | none => true)

/-!
Concrete evaluation fixtures used by the closed theorems below.
-/

/-- A pancake whose range field starts at 2^31 = i32::MAX + 1; every other
field is trivial. -/
def pancakeCex : Pancake :=
  ⟨[], none, 0, none, ⟨0, []⟩, none, [], none, false, ⟨2147483648, 0⟩, ⟨0, 0⟩⟩

/-- The C representation produced for pancakeCex: the usize range start
wraps to the i32 value -2^31. -/
def pancakeCexC : CPancakeM :=
  ⟨.valid [], .null, 0, .null, ⟨0, .valid []⟩, .null, .valid ⟨.null, 0⟩,
    .null, 0, ⟨-2147483648, 0⟩, 0, 0⟩

/-- The owned value read back from pancakeCexC: the range start
sign-extends to 2^64 - 2^31. -/
def pancakeCexBack : Pancake :=
  ⟨[], none, 0, none, ⟨0, []⟩, none, [], none, false,
    ⟨18446744071562067968, 0⟩, ⟨0, 0⟩⟩

/-- A pancake exercising every modelled classification with nontrivial
values. -/
def pancakeW : Pancake :=
  ⟨[104, 105], some [33], 7, some 9, ⟨3, [100]⟩, some ⟨5⟩, [⟨1⟩, ⟨2⟩],
    some [⟨4, some [65]⟩], true, ⟨20, 30⟩, ⟨42, 64⟩⟩

/-- The C representation produced for pancakeW. -/
def pancakeWC : CPancakeM :=
  ⟨.valid [104, 105], .valid [33], 7, .valid 9, ⟨3, .valid [100]⟩,
    .valid ⟨5⟩, .valid ⟨.valid [⟨1⟩, ⟨2⟩], 2⟩,
    .valid ⟨.valid [⟨4, .valid [65]⟩], 1⟩, 1, ⟨20, 30⟩, 42, 64⟩

/-- A field declared as *const *const i32 without the nullable marker. -/
def fieldPtrPtrI32 : RawField :=
  ⟨"x", .ptrConst (.ptrConst (.path "i32" false)), false, none, false⟩

/-- A nullable field declared as *const *const CFoo: two levels of
indirection through the nullable path. -/
def fieldNestedPtr : RawField :=
  ⟨"y", .ptrConst (.ptrConst (.path "CFoo" false)), true, none, false⟩

/-- The descriptor parse_field produces for fieldNestedPtr. -/
def sfieldNestedPtr : SField :=
  ⟨"y", "y", "CFoo", false, true, false, true, false, 2⟩

/-- A renamed string field as in the CPancake fixture:
#[target_name(field_with_specific_rust_name)] on the C-side field
field_with_specific_c_name. -/
def fieldRenamed : RawField :=
  ⟨"field_with_specific_c_name", .ptrConst (.path "c_char" false), false,
    some "field_with_specific_rust_name", false⟩

/-- The descriptor parse_field produces for fieldRenamed. -/
def sfieldRenamed : SField :=
  ⟨"field_with_specific_c_name", "field_with_specific_rust_name", "c_char",
    false, false, true, true, false, 1⟩

/-- The descriptor parse_field produces for fieldPtrPtrI32. -/
def sfieldPtrPtrI32 : SField :=
  ⟨"x", "x", "i32", false, false, false, true, false, 2⟩

/-- A plain non-nullable string field descriptor, as for the name field of
CPancake. -/
def sfieldString : SField :=
  ⟨"name", "name", "c_char", false, false, true, true, false, 1⟩

/-- Whether the macro expansion succeeded (no classification panic). -/
def isOkE : Except ε α → Bool
  | .ok _ => true
  | .error _ => false

/-- A one-past-null heap with no live allocation. -/
def heap1 : Heap Nat :=
  ⟨1, fun _ => none⟩

/-!
Helper lemmas about the runtime library model.
-/

/-- The CString::new scan returns the bytes it scanned. -/
theorem cStringCReprOf_ok_eq {s t : List Nat} (h : cStringCReprOf s = .ok t) :
    t = s := by
  induction s generalizing t with
  | nil =>
    simp only [cStringCReprOf, Except.ok.injEq] at h
    exact h.symm
  | cons b rest ih =>
    simp only [cStringCReprOf] at h
    split at h
    · exact Except.noConfusion h
    · cases hr : cStringCReprOf rest with
      | error e => rw [hr] at h; exact Except.noConfusion h
      | ok t' =>
        rw [hr] at h
        simp only [Except.ok.injEq] at h
        rw [← h, ih hr]

/-- The CString::new scan fails with the nul error exactly when a nul byte
is present. -/
theorem cStringCReprOf_error_iff (s : List Nat) :
    cStringCReprOf s = .error (.convErr .stringContainsNullBit) ↔ 0 ∈ s := by
  induction s with
  | nil => simp [cStringCReprOf]
  | cons b rest ih =>
    simp only [cStringCReprOf, List.mem_cons]
    by_cases hb : b = 0
    · simp [hb]
    · rw [if_neg hb]
      cases hr : cStringCReprOf rest with
      | error e =>
        have : e = .convErr .stringContainsNullBit ∨
            e ≠ .convErr .stringContainsNullBit := by tauto
        rcases this with he | he
        · subst he
          simp only [Except.error.injEq]
          constructor
          · intro _; exact Or.inr (ih.mp hr)
          · intro _; trivial
        · constructor
          · intro hcontr
            simp only [Except.error.injEq] at hcontr
            exact absurd hcontr he
          · intro hmem
            rcases hmem with h0 | hmem
            · exact absurd h0.symm hb
            · rw [← ih] at hmem
              rw [hmem] at hr
              simp only [Except.error.injEq] at hr
              exact absurd hr.symm he
      | ok t =>
        constructor
        · intro hcontr; exact Except.noConfusion hcontr
        · intro hmem
          rcases hmem with h0 | hmem
          · exact absurd h0.symm hb
          · rw [← ih] at hmem
            rw [hmem] at hr
            exact Except.noConfusion hr

/-- The CString::new scan succeeds on nul-free bytes, keeping them. -/
theorem cStringCReprOf_ok_of_not_mem {s : List Nat} (h : 0 ∉ s) :
    cStringCReprOf s = .ok s := by
  induction s with
  | nil => rfl
  | cons b rest ih =>
    simp only [List.mem_cons, not_or] at h
    simp only [cStringCReprOf]
    rw [if_neg (show ¬ b = 0 from fun hb => h.1 hb.symm), ih h.2]

/-- Borrowing and reading back a string that was just converted and
leaked: the original bytes come back whenever they are valid UTF-8. -/
theorem stringField_roundtrip {s : List Nat} {p : Ptr (List Nat)}
    (hwf : utf8IsValid s = true) (h : stringFieldCReprOf s = .ok p) :
    cStringPtrAsRust p = .ok s := by
  unfold stringFieldCReprOf at h
  cases hs : cStringCReprOf s with
  | error e => rw [hs] at h; exact Except.noConfusion h
  | ok t =>
    rw [hs] at h
    simp only [Except.ok.injEq] at h
    have ht : t = s := cStringCReprOf_ok_eq hs
    subst ht
    rw [← h]
    simp [cStringPtrAsRust, intoRawPointer, rawBorrow, cStrAsRust, hwf]

/-- The nullable-string field round trip. -/
theorem nullableString_roundtrip {o : Option (List Nat)} {p : Ptr (List Nat)}
    (hwf : (match o with | some s => utf8IsValid s | none => true) = true)
    (h : nullableStringCReprOf o = .ok p) :
    nullableAsRust cStringPtrAsRust p = .ok o := by
  cases o with
  | none =>
    simp only [nullableStringCReprOf, Except.ok.injEq] at h
    rw [← h]
    rfl
  | some s =>
    simp only [nullableStringCReprOf] at h
    have hrt := stringField_roundtrip hwf h
    unfold stringFieldCReprOf at h
    cases hs : cStringCReprOf s with
    | error e => rw [hs] at h; exact Except.noConfusion h
    | ok t =>
      rw [hs] at h
      simp only [Except.ok.injEq] at h
      rw [← h]
      rw [← h] at hrt
      simp only [intoRawPointer] at hrt ⊢
      simp [nullableAsRust, Ptr.isNull, hrt]

/-- The non-nullable pointer field round trip, generic in the pointee
conversions. -/
theorem ptrField_roundtrip {conv : β → Res α} {back : α → ARes β}
    {P : β → Prop} (hel : ∀ x y, P x → conv x = .ok y → back y = .ok x)
    {x : β} {p : Ptr α} (hx : P x) (h : ptrFieldCReprOf conv x = .ok p) :
    ptrFieldAsRust back p = .ok x := by
  unfold ptrFieldCReprOf at h
  cases hc : conv x with
  | error e => rw [hc] at h; exact Except.noConfusion h
  | ok y =>
    rw [hc] at h
    simp only [Except.ok.injEq] at h
    rw [← h]
    simp only [ptrFieldAsRust, intoRawPointer, rawBorrow]
    exact hel x y hx hc

/-- The nullable pointer field round trip, generic in the pointee
conversions. -/
theorem nullablePtr_roundtrip {conv : β → Res α} {back : α → ARes β}
    {P : β → Prop} (hel : ∀ x y, P x → conv x = .ok y → back y = .ok x)
    {o : Option β} {p : Ptr α}
    (ho : ∀ x, o = some x → P x) (h : nullablePtrCReprOf conv o = .ok p) :
    nullableAsRust (ptrFieldAsRust back) p = .ok o := by
  cases o with
  | none =>
    simp only [nullablePtrCReprOf, Except.ok.injEq] at h
    rw [← h]
    rfl
  | some x =>
    simp only [nullablePtrCReprOf] at h
    have hrt := ptrField_roundtrip hel (ho x rfl) h
    unfold ptrFieldCReprOf at h
    cases hc : conv x with
    | error e => rw [hc] at h; exact Except.noConfusion h
    | ok y =>
      rw [hc] at h
      simp only [Except.ok.injEq] at h
      rw [← h]
      rw [← h] at hrt
      simp only [intoRawPointer] at hrt ⊢
      simp [nullableAsRust, Ptr.isNull, hrt]

/-- A successful collect pairs inputs and outputs elementwise. -/
theorem collectResults_ok_forall {conv : β → Res α} :
    ∀ {l : List β} {lc : List α}, collectResults conv l = .ok lc →
      List.Forall₂ (fun x y => conv x = .ok y) l lc := by
  intro l
  induction l with
  | nil =>
    intro lc h
    simp only [collectResults, Except.ok.injEq] at h
    rw [← h]
    exact List.Forall₂.nil
  | cons x xs ih =>
    intro lc h
    simp only [collectResults] at h
    cases hx : conv x with
    | error e => rw [hx] at h; exact Except.noConfusion h
    | ok y =>
      rw [hx] at h
      cases hxs : collectResults conv xs with
      | error e => rw [hxs] at h; exact Except.noConfusion h
      | ok ys =>
        rw [hxs] at h
        simp only [Except.ok.injEq] at h
        rw [← h]
        exact List.Forall₂.cons hx (ih hxs)

/-- Reading back the converted elements yields the original ones. -/
theorem mapAsRust_roundtrip {conv : β → Res α} {back : α → ARes β}
    {P : β → Prop} (hel : ∀ x y, P x → conv x = .ok y → back y = .ok x) :
    ∀ {l : List β} {lc : List α},
      List.Forall₂ (fun x y => conv x = .ok y) l lc → (∀ x ∈ l, P x) →
      mapAsRust back lc = .ok l := by
  intro l lc hfa
  induction hfa with
  | nil => intro _; rfl
  | @cons x y xs ys hxy _ ih =>
    intro hP
    have hx := hel x y (hP x (List.mem_cons_self x xs)) hxy
    have hxs := ih (fun z hz => hP z (List.mem_cons_of_mem x hz))
    simp only [mapAsRust]
    rw [hx, hxs]

/-- The dynamic-array field round trip: converting every element and
reading the boxed slice back yields the original list, the empty case
included. -/
theorem cArray_roundtrip {conv : β → Res α} {back : α → ARes β}
    {P : β → Prop} (hel : ∀ x y, P x → conv x = .ok y → back y = .ok x)
    {l : List β} {arr : CArrayM α} (hP : ∀ x ∈ l, P x)
    (h : cArrayCReprOf conv l = .ok arr) :
    cArrayAsRust back arr = .ok l := by
  unfold cArrayCReprOf at h
  by_cases hl : l.length > 0
  · rw [if_pos hl] at h
    cases hc : collectResults conv l with
    | error e => rw [hc] at h; exact Except.noConfusion h
    | ok lc =>
      rw [hc] at h
      simp only [Except.ok.injEq] at h
      have hfa := collectResults_ok_forall hc
      have hlen : l.length = lc.length := hfa.length_eq
      rw [← h]
      unfold cArrayAsRust
      rw [if_pos (show (0 : Nat) < l.length from hl)]
      simp only []
      rw [if_pos hlen.symm]
      exact mapAsRust_roundtrip hel hfa hP
  · rw [if_neg hl] at h
    simp only [Except.ok.injEq] at h
    have hnil : l = [] := List.length_eq_zero.mp (by omega)
    rw [← h]
    unfold cArrayAsRust
    rw [if_neg (by simp [hnil])]
    rw [hnil]

/-- The by-value sub-struct round trip for the Dummy fixture. -/
theorem cDummy_roundtrip {x : Dummy} {y : CDummyM}
    (hwf : utf8IsValid x.describe = true) (h : cDummyCReprOf x = .ok y) :
    cDummyAsRust y = .ok x := by
  obtain ⟨count, describe⟩ := x
  unfold cDummyCReprOf at h
  cases hd : stringFieldCReprOf describe with
  | error e => rw [hd] at h; exact Except.noConfusion h
  | ok p =>
    rw [hd] at h
    simp only [Except.ok.injEq] at h
    have := stringField_roundtrip hwf hd
    rw [← h]
    unfold cDummyAsRust
    simp only []
    rw [this]

/-- The scalar sub-struct round trip for the Sauce fixture. -/
theorem cSauce_roundtrip {x : Sauce} {y : CSauceM}
    (h : cSauceCReprOf x = .ok y) : cSauceAsRust y = .ok x := by
  obtain ⟨volume⟩ := x
  simp only [cSauceCReprOf, Except.ok.injEq] at h
  rw [← h]
  rfl

/-- The scalar sub-struct round trip for the Topping fixture. -/
theorem cTopping_roundtrip {x : Topping} {y : CToppingM}
    (h : cToppingCReprOf x = .ok y) : cToppingAsRust y = .ok x := by
  obtain ⟨amount⟩ := x
  simp only [cToppingCReprOf, Except.ok.injEq] at h
  rw [← h]
  rfl

/-- The sub-struct round trip for the Layer fixture, containing a nullable
string field. -/
theorem cLayer_roundtrip {x : Layer} {y : CLayerM}
    (hwf : (match x.subtitle with | some s => utf8IsValid s | none => true) = true)
    (h : cLayerCReprOf x = .ok y) : cLayerAsRust y = .ok x := by
  obtain ⟨number, subtitle⟩ := x
  unfold cLayerCReprOf at h
  cases hs : nullableStringCReprOf subtitle with
  | error e => rw [hs] at h; exact Except.noConfusion h
  | ok p =>
    rw [hs] at h
    simp only [Except.ok.injEq] at h
    have := nullableString_roundtrip hwf hs
    rw [← h]
    unfold cLayerAsRust
    simp only []
    rw [this]

/-- Casting a usize below 2^31 to i32 and back is the identity. -/
theorem i32ToUsize_usizeToI32_small {n : Nat} (h : n < 2147483648) :
    i32ToUsize (usizeToI32 n) = n := by
  have h1 : n % 4294967296 = n := Nat.mod_eq_of_lt (by omega)
  simp only [usizeToI32, i32ToUsize, h1]
  rw [if_pos (by exact_mod_cast h)]
  omega

/-- The range field round trip when both bounds fit in i32. -/
theorem cRange_roundtrip {r : RangeNat} {c : CRangeM}
    (hs : r.start < 2147483648) (he : r.stop < 2147483648)
    (h : cRangeCReprOf r = .ok c) : cRangeAsRust c = .ok r := by
  obtain ⟨s, e⟩ := r
  simp only [cRangeCReprOf, Except.ok.injEq] at h
  rw [← h]
  unfold cRangeAsRust
  simp only [Except.ok.injEq]
  rw [i32ToUsize_usizeToI32_small hs, i32ToUsize_usizeToI32_small he]

/-- The bool field round trip through its u8 representation. -/
theorem bool_roundtrip (b : Bool) : u8ToBool (boolToU8 b) = b := by
  cases b <;> rfl

/-- Claim C1 (amended): for the supported field-classification combinations with
a generated conversion body (plain scalar, string, nullable string,
sub-struct, nullable sub-struct, dynamic array including the empty case,
nullable array, range, overridden/flattened field), converting an owned
value with the generated c_repr_of and back with the generated as_rust
yields the original value, provided c_repr_of succeeded, the owned strings
are valid UTF-8 (the String type invariant), and both usize range bounds
are at most i32::MAX, since the usize range representation narrows to
i32.  The renamed-field classification is excluded: impl_creprof_macro
accesses the owned input through the C-side field name, so no conversion
body exists for a genuinely renamed field. -/
theorem spec_C1 (v : Pancake) (c : CPancakeM)
    (hwf : pancakeWf v = true)
    (hrs : v.range.start < 2147483648) (hre : v.range.stop < 2147483648)
    (hok : cPancakeCReprOf v = .ok c) :
    cPancakeAsRust c = .ok v := by
  obtain ⟨name, description, start, stop, dummy, sauce, toppings, layers,
    is_delicious, range, flattened_range⟩ := v
  simp only [pancakeWf, Bool.and_eq_true] at hwf
  obtain ⟨⟨⟨hwName, hwDesc⟩, hwDummy⟩, hwLayers⟩ := hwf
  unfold cPancakeCReprOf at hok
  cases h1 : stringFieldCReprOf name with
  | error e => rw [h1] at hok; exact Except.noConfusion hok
  | ok pName =>
  rw [h1] at hok
  cases h2 : nullableStringCReprOf description with
  | error e => rw [h2] at hok; exact Except.noConfusion hok
  | ok pDesc =>
  rw [h2] at hok
  cases h3 : nullablePtrCReprOf (fun f => (.ok f : Res F32Bits)) stop with
  | error e => rw [h3] at hok; exact Except.noConfusion hok
  | ok pStop =>
  rw [h3] at hok
  cases h4 : cDummyCReprOf dummy with
  | error e => rw [h4] at hok; exact Except.noConfusion hok
  | ok cDummy =>
  rw [h4] at hok
  cases h5 : nullablePtrCReprOf cSauceCReprOf sauce with
  | error e => rw [h5] at hok; exact Except.noConfusion hok
  | ok pSauce =>
  rw [h5] at hok
  cases h6 : ptrFieldCReprOf (cArrayCReprOf cToppingCReprOf) toppings with
  | error e => rw [h6] at hok; exact Except.noConfusion hok
  | ok pToppings =>
  rw [h6] at hok
  cases h7 : nullablePtrCReprOf (cArrayCReprOf cLayerCReprOf) layers with
  | error e => rw [h7] at hok; exact Except.noConfusion hok
  | ok pLayers =>
  rw [h7] at hok
  cases h8 : cRangeCReprOf range with
  | error e => rw [h8] at hok; exact Except.noConfusion hok
  | ok cRange =>
  rw [h8] at hok
  simp only [Except.ok.injEq] at hok
  rw [← hok]
  unfold cPancakeAsRust
  simp only []
  rw [stringField_roundtrip hwName h1]
  rw [nullableString_roundtrip hwDesc h2]
  rw [nullablePtr_roundtrip (P := fun _ => True)
    (fun x y _ hc => by
      simp only [Except.ok.injEq] at hc
      rw [← hc])
    (fun _ _ => trivial) h3]
  rw [cDummy_roundtrip hwDummy h4]
  rw [nullablePtr_roundtrip (P := fun _ => True)
    (fun x y _ hc => cSauce_roundtrip hc) (fun _ _ => trivial) h5]
  rw [ptrField_roundtrip (P := fun _ => True)
    (fun x y _ hc => cArray_roundtrip (P := fun _ => True)
      (fun a b _ hab => cTopping_roundtrip hab) (fun _ _ => trivial) hc)
    trivial h6]
  rw [nullablePtr_roundtrip
    (P := fun ls => ls.all (fun l =>
      match l.subtitle with | some s => utf8IsValid s | none => true) = true)
    (fun ls ar hls hc => cArray_roundtrip
      (P := fun l =>
        (match l.subtitle with | some s => utf8IsValid s | none => true) = true)
      (fun a b ha hab => cLayer_roundtrip ha hab)
      (fun a ha => by
        have hls2 : (ls.all fun l =>
            match l.subtitle with
            | some s => utf8IsValid s
            | none => true) = true := hls
        rw [List.all_eq_true] at hls2
        exact hls2 a ha) hc)
    (fun ls hls => by
      cases layers with
      | none => exact Option.noConfusion hls
      | some ls0 =>
        simp only [Option.some.injEq] at hls
        rw [← hls]
        exact hwLayers) h7]
  rw [cRange_roundtrip hrs hre h8]
  rw [bool_roundtrip]

/-- Witness for claim C1: the round trip evaluated on a pancake exercising
every modelled classification. -/
theorem spec_C1_witness :
    cPancakeCReprOf pancakeW = .ok pancakeWC ∧
    cPancakeAsRust pancakeWC = .ok pancakeW :=
  ⟨rfl, spec_C1 pancakeW pancakeWC rfl (by decide) (by decide) rfl⟩

/-- Counterexample for claim C1 as stated: a pancake whose usize range
starts at 2^31 converts successfully, but reading it back yields a
different value, because the range representation narrows the bound to i32
where it wraps to -2^31 and sign-extends back to 2^64 - 2^31. -/
theorem spec_C1_cex :
    cPancakeCReprOf pancakeCex = .ok pancakeCexC ∧
    cPancakeAsRust pancakeCexC = .ok pancakeCexBack ∧
    pancakeCexBack ≠ pancakeCex := by
  refine ⟨rfl, rfl, ?_⟩
  decide

/-- Claim C2 (amended): every CArray produced by c_repr_of satisfies the
pointer-null-iff-size-zero invariant, with the empty vector yielding the
null pointer and size zero; a CStringArray produced by c_repr_of instead
always records a non-null data pointer (Box::into_raw of the boxed slice,
which is non-null also for the empty slice) together with the input
length, so the invariant fails for it exactly on the empty vector. -/
theorem spec_C2 (β α : Type) (conv : β → Res α) (l : List β) (arr : CArrayM α) :
    (cArrayCReprOf conv l = .ok arr → (arr.data_ptr = Ptr.null ↔ arr.size = 0)) ∧
    cArrayCReprOf conv ([] : List β) = .ok ⟨Ptr.null, 0⟩ ∧
    (∀ (sl : List (List Nat)) (sarr : CStringArrayM),
      cStringArrayCReprOf sl = .ok sarr →
        sarr.data ≠ Ptr.null ∧ sarr.size = sl.length) := by
  refine ⟨?_, rfl, ?_⟩
  · intro h
    unfold cArrayCReprOf at h
    by_cases hl : l.length > 0
    · rw [if_pos hl] at h
      cases hc : collectResults conv l with
      | error e => rw [hc] at h; exact Except.noConfusion h
      | ok lc =>
        rw [hc] at h
        simp only [Except.ok.injEq] at h
        rw [← h]
        simp only []
        constructor
        · intro hcontr; exact Ptr.noConfusion hcontr
        · intro hcontr; omega
    · rw [if_neg hl] at h
      simp only [Except.ok.injEq] at h
      rw [← h]
      constructor
      · intro _
        show l.length = 0
        omega
      · intro _
        rfl
  · intro sl sarr h
    unfold cStringArrayCReprOf at h
    cases hc : collectResults (fun s =>
        match cStringCReprOf s with
        | .error e => .error e
        | .ok t => .ok (intoRawPointer t)) sl with
    | error e => rw [hc] at h; exact Except.noConfusion h
    | ok ptrs =>
      rw [hc] at h
      simp only [Except.ok.injEq] at h
      rw [← h]
      exact ⟨fun hcontr => Ptr.noConfusion hcontr, rfl⟩

/-- Witness for claim C2: the invariant evaluated on a singleton CArray
and a singleton CStringArray. -/
theorem spec_C2_witness :
    ((CArrayM.mk (Ptr.valid [CToppingM.mk 1]) 1).data_ptr = Ptr.null ↔
      (CArrayM.mk (Ptr.valid [CToppingM.mk 1]) 1).size = 0) ∧
    (CStringArrayM.mk (Ptr.valid [Ptr.valid [104]]) 1).data ≠ Ptr.null ∧
    (CStringArrayM.mk (Ptr.valid [Ptr.valid [104]]) 1).size = [[104]].length :=
  ⟨(spec_C2 Topping CToppingM cToppingCReprOf [⟨1⟩] ⟨Ptr.valid [⟨1⟩], 1⟩).1 rfl,
   (spec_C2 Topping CToppingM cToppingCReprOf [⟨1⟩] ⟨Ptr.valid [⟨1⟩], 1⟩).2.2
     [[104]] ⟨Ptr.valid [Ptr.valid [104]], 1⟩ rfl⟩

/-- Counterexample for claim C2 as stated: CStringArray::c_repr_of on the
empty vector records size zero with a non-null data pointer, violating the
pointer-null-iff-size-zero invariant. -/
theorem spec_C2_cex :
    cStringArrayCReprOf [] = .ok ⟨Ptr.valid [], 0⟩ ∧
    Ptr.valid ([] : List (Ptr (List Nat))) ≠ Ptr.null :=
  ⟨rfl, fun hcontr => Ptr.noConfusion hcontr⟩

/-- A struct with a field needing a panic makes the whole AsRust expansion
panic. -/
theorem asrustFields_error_of_mem {ds : List SField} {d : SField}
    (hmem : d ∈ ds) (hlev : d.levels_of_indirection > 1)
    (hnul : d.is_nullable = false) : isOkE (asrustFields ds) = false := by
  induction ds with
  | nil => cases hmem
  | cons d0 rest ih =>
    by_cases h0 : d0.levels_of_indirection > 1 ∧ d0.is_nullable = false
    · simp only [asrustFields, asrustField, if_pos h0]
      rfl
    · rcases List.mem_cons.mp hmem with he | hm
      · rw [he] at hlev hnul
        exact absurd ⟨hlev, hnul⟩ h0
      · have hrest := ih hm
        simp only [asrustFields, asrustField, if_neg h0]
        cases hconv : d0.hasConvert <;>
          simp only [Bool.false_eq_true, if_neg, if_pos] <;>
          cases har : asrustFields rest with
          | error e => rfl
          | ok r => rw [har] at hrest; exact absurd hrest (by simp [isOkE])

/-- Claim C3 (amended): a non-nullable field with more than one level of
pointer indirection makes the AsRust derive panic at expansion time, but
the CReprOf and CDrop derives do not check the indirection depth: their
expansions succeed and emit conversion bodies for the same struct. -/
theorem spec_C3 (fields : List RawField) (ds : List SField) (d : SField)
    (hparse : parseFields fields = .ok ds) (hmem : d ∈ ds)
    (hlev : d.levels_of_indirection > 1) (hnul : d.is_nullable = false) :
    isOkE (asrustExpand fields) = false ∧
    creprofExpand fields = .ok (ds.map creprofField) ∧
    cdropExpand fields = .ok (ds.map cdropField) := by
  refine ⟨?_, ?_, ?_⟩
  · unfold asrustExpand
    rw [hparse]
    exact asrustFields_error_of_mem hmem hlev hnul
  · unfold creprofExpand
    rw [hparse]
  · unfold cdropExpand
    rw [hparse]

/-- Witness for claim C3: expansion of a struct holding the field
x: *const *const i32 without the nullable marker. -/
theorem spec_C3_witness :
    isOkE (asrustExpand [fieldPtrPtrI32]) = false ∧
    creprofExpand [fieldPtrPtrI32] = .ok ([sfieldPtrPtrI32].map creprofField) ∧
    cdropExpand [fieldPtrPtrI32] = .ok ([sfieldPtrPtrI32].map cdropField) :=
  spec_C3 [fieldPtrPtrI32] [sfieldPtrPtrI32] sfieldPtrPtrI32 rfl
    (List.mem_singleton.mpr rfl) (by decide) rfl

/-- Counterexample for claim C3 as stated: on the pointer-to-pointer
non-nullable field, the CReprOf and CDrop expansions succeed instead of
failing; only the AsRust expansion panics. -/
theorem spec_C3_cex :
    isOkE (creprofExpand [fieldPtrPtrI32]) = true ∧
    isOkE (cdropExpand [fieldPtrPtrI32]) = true ∧
    isOkE (asrustExpand [fieldPtrPtrI32]) = false :=
  ⟨rfl, rfl, rfl⟩

/-- Claim C4: CArray::c_repr_of on a vector with a failing element.  The
collected element results are fed to expect, so the conversion PANICS with
the expect message instead of returning the typed CReprOfError that its
signature promises and that the parallel CStringArray implementation
propagates: evaluating the code at a failing input yields the panic
outcome. -/
theorem spec_C4 :
    cArrayCReprOf cLayerCReprOf [⟨0, some [0]⟩] =
      .error (.panicked "Could not convert to C representation") := rfl

/-- Claim C5 (amended): for every field descriptor, the generated do_drop
body emits exactly one release call when the field is a pointer field
(string fields through the CString release), regardless of the recorded
indirection depth, emits no release call for plain value fields, and wraps
the statement in a null check exactly when the field is nullable. -/
theorem spec_C5 (f : SField) :
    (f.is_string = true →
      dropExprOf (cdropField f) = DExpr.dropCString f.name ∧
      releaseCalls (cdropField f) = 1) ∧
    (f.is_string = false → f.is_pointer = true →
      releaseCalls (cdropField f) = 1) ∧
    (f.is_string = false → f.is_pointer = false →
      releaseCalls (cdropField f) = 0) ∧
    isGuarded (cdropField f) = f.is_nullable := by
  obtain ⟨n, tn, ti, ta, nb, sb, pb, cb, lv⟩ := f
  cases sb <;> cases pb <;> cases nb <;> cases ta <;>
    simp [cdropField, dropExprOf, releaseCalls, releaseCallsE, isGuarded]

/-- Witness for claim C5: the do_drop emission for the non-nullable string
field name. -/
theorem spec_C5_witness :
    dropExprOf (cdropField sfieldString) = DExpr.dropCString "name" ∧
    releaseCalls (cdropField sfieldString) = 1 :=
  ⟨((spec_C5 sfieldString).1 rfl).1, ((spec_C5 sfieldString).1 rfl).2⟩

/-- Counterexample for claim C5 as stated: a nullable pointer field with
two recorded levels of indirection receives a single release call, not one
release call per level. -/
theorem spec_C5_cex :
    parseField fieldNestedPtr = .ok sfieldNestedPtr ∧
    sfieldNestedPtr.is_pointer = true ∧
    sfieldNestedPtr.is_string = false ∧
    sfieldNestedPtr.levels_of_indirection = 2 ∧
    releaseCalls (cdropField sfieldNestedPtr) = 1 ∧
    releaseCalls (cdropField sfieldNestedPtr) ≠
      sfieldNestedPtr.levels_of_indirection :=
  ⟨rfl, rfl, rfl, rfl, rfl, by decide⟩

/-- Claim C6: reconstructing an owned string from a C string pointer
through CStr::raw_borrow followed by as_rust: the null pointer yields the
unexpected-null-pointer failure, a non-null pointer to bytes that are not
valid UTF-8 yields the UTF-8 failure, and otherwise the owned string equal
to the pointee text is returned. -/
theorem spec_C6 (p : Ptr (List Nat)) :
    (p = Ptr.null → cStringPtrAsRust p = .error AsRustErr.nullPointer) ∧
    (∀ s, p = Ptr.valid s → utf8IsValid s = false →
      cStringPtrAsRust p = .error AsRustErr.utf8Error) ∧
    (∀ s, p = Ptr.valid s → utf8IsValid s = true →
      cStringPtrAsRust p = .ok s) := by
  refine ⟨?_, ?_, ?_⟩
  · intro h
    rw [h]
    rfl
  · intro s h hu
    rw [h]
    simp [cStringPtrAsRust, rawBorrow, cStrAsRust, hu]
  · intro s h hu
    rw [h]
    simp [cStringPtrAsRust, rawBorrow, cStrAsRust, hu]

/-- Witness for claim C6: the three outcomes evaluated on the null pointer,
an invalid byte, and a valid ASCII string. -/
theorem spec_C6_witness :
    cStringPtrAsRust Ptr.null = .error AsRustErr.nullPointer ∧
    cStringPtrAsRust (Ptr.valid [255]) = .error AsRustErr.utf8Error ∧
    cStringPtrAsRust (Ptr.valid [104, 105]) = .ok [104, 105] :=
  ⟨(spec_C6 Ptr.null).1 rfl,
   (spec_C6 (Ptr.valid [255])).2.1 [255] rfl (by decide),
   (spec_C6 (Ptr.valid [104, 105])).2.2 [104, 105] rfl (by decide)⟩

/-- Claim C7: CString::c_repr_of fails with the string-contains-nul error
exactly when the owned string contains a nul byte, and succeeds, keeping
the bytes, for every other string. -/
theorem spec_C7 (s : List Nat) :
    (cStringCReprOf s = .error (.convErr .stringContainsNullBit) ↔ 0 ∈ s) ∧
    (0 ∉ s → cStringCReprOf s = .ok s) :=
  ⟨cStringCReprOf_error_iff s, cStringCReprOf_ok_of_not_mem⟩

/-- Witness for claim C7: the scan evaluated on a string with an embedded
nul and on a nul-free string. -/
theorem spec_C7_witness :
    cStringCReprOf [104, 0, 105] =
      .error (.convErr .stringContainsNullBit) ∧
    cStringCReprOf [104, 105] = .ok [104, 105] :=
  ⟨(spec_C7 [104, 0, 105]).1.mpr (by decide),
   (spec_C7 [104, 105]).2 (by decide)⟩

/-- Claim C8: CArray::as_rust borrows the C representation without
mutating or consuming it: run against an explicit heap it returns the heap
unchanged, and a second call on the same unreleased, unmutated value
returns an equal result. -/
theorem spec_C8 (α β : Type) (elemAsRust : α → ARes β) (arr : HCArray)
    (h : Heap (List α)) :
    (hCArrayAsRust elemAsRust arr h).2 = h ∧
    (hCArrayAsRust elemAsRust arr ((hCArrayAsRust elemAsRust arr h).2)).1 =
      (hCArrayAsRust elemAsRust arr h).1 := by
  have hpres : ∀ (hh : Heap (List α)), (hCArrayAsRust elemAsRust arr hh).2 = hh := by
    intro hh
    unfold hCArrayAsRust
    by_cases hs : arr.size > 0
    · rw [if_pos hs]
      cases hm : hh.mem arr.data_ptr with
      | none => rfl
      | some l =>
        by_cases hl : l.length = arr.size
        · simp [hl]
        · simp [hl]
    · rw [if_neg hs]
  refine ⟨hpres h, ?_⟩
  rw [hpres h]

/-- Claim C9: the generic raw-pointer ownership transfer round trip:
reclaiming the pointer produced by into_raw_pointer returns the original
value (freeing the allocation), and reclaiming the null pointer is the
unexpected-null-pointer error. -/
theorem spec_C9 (α : Type) (v : α) (h : Heap α) (hnz : h.next ≠ 0) :
    fromRawPointerH (intoRawPointerH v h).1 (intoRawPointerH v h).2 =
      .ok (v, ((intoRawPointerH v h).2).free (intoRawPointerH v h).1) ∧
    fromRawPointerH 0 h = (PtrRes.nullErr : PtrRes (α × Heap α)) := by
  constructor
  · simp only [intoRawPointerH, Heap.alloc, fromRawPointerH]
    rw [if_neg hnz]
    simp
  · simp [fromRawPointerH]

/-- Witness for claim C9: the transfer and reclaim pair evaluated on the
value 42 against the empty heap. -/
theorem spec_C9_witness :
    fromRawPointerH (intoRawPointerH 42 heap1).1 (intoRawPointerH 42 heap1).2 =
      .ok (42, ((intoRawPointerH 42 heap1).2).free (intoRawPointerH 42 heap1).1) ∧
    fromRawPointerH 0 heap1 = (PtrRes.nullErr : PtrRes (Nat × Heap Nat)) :=
  spec_C9 Nat 42 heap1 (by decide)

/-- Claim C10 (amended): the usize to i32 conversion is the plain `as`
cast, the identity below i32::MAX and wrapping above it; as_rust on a
negative i32 sign-extends to the high usize range; and therefore the
usize-i32-usize round trip is the identity exactly when n is at most
i32::MAX or at least 2^64 - 2^31 (truncation followed by sign extension
also restores the top range), not only when n is at most i32::MAX. -/
theorem spec_C10 (n : Nat) (hn : n < 18446744073709551616) :
    (n ≤ 2147483647 → usizeToI32 n = (n : Int)) ∧
    (∀ x : Int, -2147483648 ≤ x → x < 0 →
      (i32ToUsize x : Int) = x + 18446744073709551616) ∧
    (i32ToUsize (usizeToI32 n) = n ↔
      (n ≤ 2147483647 ∨ 18446744071562067968 ≤ n)) := by
  refine ⟨?_, ?_, ?_⟩
  · intro h
    have h1 : n % 4294967296 = n := Nat.mod_eq_of_lt (by omega)
    simp only [usizeToI32, h1]
    rw [if_pos (by omega)]
  · intro x h1 h2
    simp only [i32ToUsize]
    omega
  · simp only [usizeToI32, i32ToUsize]
    by_cases hm : n % 4294967296 < 2147483648
    · rw [if_pos hm]
      omega
    · rw [if_neg hm]
      omega

/-- Witness for claim C10: the conversions evaluated at 5 and -3. -/
theorem spec_C10_witness :
    usizeToI32 5 = (5 : Int) ∧
    (i32ToUsize (-3) : Int) = -3 + 18446744073709551616 ∧
    (i32ToUsize (usizeToI32 5) = 5 ↔
      (5 ≤ 2147483647 ∨ 18446744071562067968 ≤ 5)) :=
  ⟨(spec_C10 5 (by norm_num)).1 (by norm_num),
   (spec_C10 5 (by norm_num)).2.1 (-3) (by norm_num) (by norm_num),
   (spec_C10 5 (by norm_num)).2.2⟩

/-- Counterexample for claim C10 as stated: the round trip is also the
identity at usize::MAX, which is far above i32::MAX. -/
theorem spec_C10_cex :
    i32ToUsize (usizeToI32 18446744073709551615) = 18446744073709551615 ∧
    ¬ (18446744073709551615 ≤ (2147483647 : Nat)) := by
  constructor
  · simp only [usizeToI32, i32ToUsize]
    norm_num
    rfl
  · decide

/-- The CReprOf derive reads the owned input through the declared C-side
field name: for a renamed field (distinct target_name) the emitted
initializer accesses input by the C-side name, while the AsRust derive
assigns the target name; the owned struct declares only the target name,
so the emitted to-C body does not typecheck against it. -/
theorem creprof_reads_c_side_name_for_renamed_field :
    parseField fieldRenamed = .ok sfieldRenamed ∧
    creprofField sfieldRenamed =
      .plainInit "field_with_specific_c_name" "field_with_specific_c_name"
        (.intoRawPtr .cstringCReprOfField) ∧
    asrustField sfieldRenamed =
      .ok (some (.plainInit "field_with_specific_rust_name"
        (.cstrBorrowAsRust "field_with_specific_c_name"))) ∧
    sfieldRenamed.name ≠ sfieldRenamed.target_name :=
  ⟨rfl, rfl, rfl, by decide⟩

end FfiConvert
